import Mathlib

set_option maxRecDepth 2000

/-!
Shallow embedding of the Ashby multi-tenant extraction client
(`src/client.ts`, modelled from the file shipped as `unnamed/part_003`)
and of the extraction orchestrator (`src/api-extract.ts`).

Modelling conventions:
* The remote service is an environment `env : Nat -> Resp` giving the
  response to the n-th network call of a run; the world state `W` threads
  the session, the call counter and the trace of issued requests.
* ISO timestamp strings are modelled as epoch milliseconds (`Nat`);
  `Date.now()` is the constant `W.now` of a run.
* JavaScript falsiness of `""`, `null`/`undefined` and `0` is modelled
  explicitly at each use site (see `strOrD`, `strOrN`, `numOrN`).
* `async`/`await` sequencing is modelled as sequential state threading;
  `Promise.all` over a batch preserves order and length and is modelled
  as an in-order traversal.
* Unbounded `while` loops of the source take a fuel parameter; running
  out of fuel models divergence cut off (the source loops on).
-/

namespace Ashby

/-- Session state: cookie jar, optional anti-forgery token, known org ids
(`AshbySession` in `types.ts`). -/
structure AshbySession where
  cookies : List (String × String)
  csrfToken : Option String
  orgIds : List String
deriving Repr, DecidableEq

/-- JS truthiness of an optional cookie value: present and nonempty. -/
def truthyStr (o : Option String) : Bool :=
  match o with
  | some v => v ≠ ""
  | none => false

/-- The auth-cookie presence check used by `fetchCsrfToken` and
`extractCommand`: either `ashby_session_token` or `authenticated`. -/
def hasAuthCookies (s : AshbySession) : Bool :=
  truthyStr (s.cookies.lookup "ashby_session_token") ||
  truthyStr (s.cookies.lookup "authenticated")

/-- One row of the `jobsPipelines` response (fields used downstream). -/
structure JobPipelineRow where
  jobId : String
  jobTitle : String
deriving Repr, DecidableEq

/-- Job reference inside an application result. -/
structure JobRef where
  id : String
  title : String
deriving Repr, DecidableEq

/-- Candidate reference inside an application result. -/
structure CandRef where
  id : String
  name : String
  company : Option String
deriving Repr, DecidableEq

/-- Source reference inside an application result. -/
structure SourceRef where
  id : String
  title : String
deriving Repr, DecidableEq

/-- User reference (`creditedToUser`, interviewers). -/
structure UserRef where
  id : String
  firstName : String
  lastName : String
  email : String
deriving Repr, DecidableEq

/-- Application status block. -/
structure StatusInfo where
  description : String
  priority : Option Int
  dueAt : Option Nat
deriving Repr, DecidableEq

/-- Current interview stage reference. -/
structure StageRef where
  id : String
  title : Option String
  stageType : String
deriving Repr, DecidableEq

/-- One element of `result.results` in the paginated applications
response (`ApplicationResult`). -/
structure ApplicationResult where
  id : String
  job : JobRef
  candidate : CandRef
  source : Option SourceRef
  creditedToUser : Option UserRef
  applicationStatus : Option StatusInfo
  createdAt : Nat
  currentInterviewStage : Option StageRef
deriving Repr, DecidableEq

/-- One entry of the `available_identities` response. -/
structure IdentityRow where
  userId : String
  orgId : String
  orgName : String
deriving Repr, DecidableEq

/-- Org descriptor (`OrgInfo`). -/
structure OrgInfo where
  id : String
  name : String
deriving Repr, DecidableEq

/-- Org descriptor with the user-within-org id (`OrgInfoWithUserId`). -/
structure OrgInfoWithUserId where
  id : String
  name : String
  userId : String
deriving Repr, DecidableEq

/-- A form field entry of a scorecard submission render. -/
structure FieldEntry where
  field : String
  value : Option String
deriving Repr, DecidableEq

/-- A scorecard submission render: top level field entries plus sections. -/
structure FormRender where
  fieldEntries : List FieldEntry
  sections : List (List FieldEntry)
deriving Repr, DecidableEq

/-- A scorecard submission of one interviewer. -/
structure ScorecardSub where
  overallRecommendation : Option String
  submittedAt : Option Nat
  submittedFormRender : Option FormRender
deriving Repr, DecidableEq

/-- One interviewer event inside an interview event. -/
structure InterviewerEvent where
  id : String
  interviewer : UserRef
  scorecardSubmission : Option ScorecardSub
  isFeedbackSubmitted : Bool
deriving Repr, DecidableEq

/-- Interview reference of an interview event. -/
structure InterviewRef where
  id : String
  title : String
deriving Repr, DecidableEq

/-- One interview event of the application-detail response. -/
structure IEvent where
  id : String
  startTime : Nat
  endTime : Nat
  interview : InterviewRef
  interviewerEvents : List InterviewerEvent
deriving Repr, DecidableEq

/-- One interview stage of an interview plan. -/
structure PlanStage where
  id : String
  title : String
  stageType : String
deriving Repr, DecidableEq

/-- An interview plan. -/
structure PlanInfo where
  id : String
  interviewStages : List PlanStage
deriving Repr, DecidableEq

/-- One interview-plan configuration attached to a job. -/
structure JobPlanCfg where
  isDefault : Bool
  interviewPlan : Option PlanInfo
deriving Repr, DecidableEq

/-- Job block of the application-detail response. -/
structure JobDetail where
  id : String
  title : String
  interviewPlansWithActivities : Option (List JobPlanCfg)
deriving Repr, DecidableEq

/-- The application-detail payload used by `fetchApplicationDetails`. -/
structure AppDetails where
  applicationStatus : Option StatusInfo
  currentInterviewStage : Option StageRef
  job : Option JobDetail
  interviewPlan : Option PlanInfo
  interviewEvents : List IEvent
deriving Repr, DecidableEq

/-- A response of the remote service to one network call. -/
inductive Resp where
  | csrfOk (tok : String)
  | csrf401
  | netErr
  | switchOk
  | gqlUser (orgId : String) (orgName : String)
  | gqlJobs (jobs : List JobPipelineRow)
  | gqlApps (results : List ApplicationResult) (nextCursor : Option String) (more : Bool)
  | gqlDetails (app : Option AppDetails)
  | identsOk (idents : List IdentityRow)
deriving Repr, DecidableEq

/-- A network request event, recorded in issue order. -/
inductive Ev where
  | csrfFetch
  | switchPost (userId : String)
  | query (op : String)
  | identsGet
deriving Repr, DecidableEq

/-- The error classification of thrown errors, by throw site. -/
inductive Err where
  | missingAuthCookies
  | sessionInvalid
  | csrfExhausted
  | switchFailed
  | csrfAfterSwitchFailed
  | gqlFailed
deriving Repr, DecidableEq

/-- The world threaded through every call: session, environment,
number of calls made so far, request trace, and the run clock. -/
structure W where
  sess : AshbySession
  env : Nat → Resp
  calls : Nat
  trace : List Ev
  now : Nat

/-- Issue one network call: record the event, consume the next response. -/
def net (e : Ev) (w : W) : Resp × W :=
  (w.env w.calls, { w with calls := w.calls + 1, trace := w.trace ++ [e] })

/-- Replace the cached anti-forgery token. -/
def setTok (w : W) (t : Option String) : W :=
  { w with sess := { w.sess with csrfToken := t } }

/-- An environment that plays a fixed script and then fails transport. -/
def scriptEnv (l : List Resp) : Nat → Resp :=
  fun n => l.getD n .netErr

/-- Build an initial world from an environment and a session. -/
def mkW (env : Nat → Resp) (s : AshbySession) (now : Nat) : W :=
  ⟨s, env, 0, [], now⟩

/-- The retry loop body of `fetchCsrfToken`: one GET per attempt; a 401
is terminal, any other failure is retried while attempts remain. -/
def csrfAttempts (remaining : Nat) (w : W) : Except Err String × W :=
  match net .csrfFetch w with
  | (.csrfOk tok, w) => (.ok tok, w)
  | (.csrf401, w) => (.error .sessionInvalid, w)
  | (_, w) =>
    match remaining with
    | 0 => (.error .csrfExhausted, w)
    | n + 1 => csrfAttempts n w

/-- Counterpart of `fetchCsrfToken(session, retries)`: guard on auth
cookies, then up to `retries + 1` attempts. -/
def fetchCsrfToken (retries : Nat) (w : W) : Except Err String × W :=
  if hasAuthCookies w.sess then csrfAttempts retries w
  else (.error .missingAuthCookies, w)

/-- The POST of `graphqlQuery` once a token is at hand; a transport
failure or a 401 at the GraphQL endpoint throws. -/
def gqlPost (op : String) (w : W) : Except Err Resp × W :=
  match net (.query op) w with
  | (.netErr, w) => (.error .gqlFailed, w)
  | (.csrf401, w) => (.error .gqlFailed, w)
  | (r, w) => (.ok r, w)

/-- Counterpart of `graphqlQuery`: fetch a token when missing or when a
forced refresh is requested (caching it on the session), then POST. -/
def graphqlQuery (op : String) (force : Bool) (w : W) : Except Err Resp × W :=
  if w.sess.csrfToken.isNone || force then
    match fetchCsrfToken 2 w with
    | (.error e, w) => (.error e, w)
    | (.ok tok, w) => gqlPost op (setTok w (some tok))
  else gqlPost op w

/-- Counterpart of `switchOrgContext`: fresh token, switch POST, forced
post-switch token refresh, then a verification query whose outcome is
logged but otherwise ignored. -/
def switchOrgContext (userId : String) (w : W) : Except Err Unit × W :=
  match fetchCsrfToken 2 w with
  | (.error e, w) => (.error e, w)
  | (.ok _, w) =>
    match net (.switchPost userId) w with
    | (.switchOk, w) =>
      match fetchCsrfToken 2 w with
      | (.error _, w) => (.error .csrfAfterSwitchFailed, setTok w none)
      | (.ok tok2, w) =>
        let w := setTok w (some tok2)
        (.ok (), (graphqlQuery "ApiGetSessionUser" false w).2)
    | (_, w) => (.error .switchFailed, w)

/-- Dedup of the identities list by organization id, keeping the first
user id seen for each org (`orgMap` in `fetchAllAvailableOrgs`). -/
def dedupOrgs (idents : List IdentityRow) : List OrgInfoWithUserId :=
  idents.foldl
    (fun acc i =>
      if acc.any (fun o => o.id = i.orgId) then acc
      else acc ++ [⟨i.orgId, i.orgName, i.userId⟩])
    []

/-- Counterpart of `fetchAllAvailableOrgs`: validate the session by a
token fetch (errors rethrown), then GET the identities list; a non-ok
response yields the empty list. -/
def fetchAllAvailableOrgs (w : W) : Except Err (List OrgInfoWithUserId) × W :=
  match fetchCsrfToken 2 w with
  | (.error e, w) => (.error e, w)
  | (.ok tok, w) =>
    let w := setTok w (some tok)
    match net .identsGet w with
    | (.identsOk idents, w) => (.ok (dedupOrgs idents), w)
    | (_, w) => (.ok [], w)

/-- Counterpart of `fetchAvailableOrgs`: all orgs when nonempty, else a
single synthetic descriptor from the session-user query, else `[]`. -/
def fetchAvailableOrgs (w : W) : Except Err (List OrgInfo) × W :=
  match fetchAllAvailableOrgs w with
  | (.error e, w) => (.error e, w)
  | (.ok allOrgs, w) =>
    if allOrgs.isEmpty then
      match graphqlQuery "ApiGetSessionUser" false w with
      | (.ok (.gqlUser oid onm), w) =>
        if oid ≠ "" then
          (.ok [⟨oid, if onm = "" then oid else onm⟩], w)
        else (.ok [], w)
      | (_, w) => (.ok [], w)
    else (.ok (allOrgs.map fun o => ⟨o.id, o.name⟩), w)

/-- Normalized company record. -/
structure Company where
  id : String
  name : String
deriving Repr, DecidableEq

/-- Normalized job record. -/
structure Job where
  id : String
  title : String
  companyId : String
deriving Repr, DecidableEq

/-- Enriched interviewer summary of an interview event. -/
structure IntvSummary where
  name : String
  email : String
  overallRecommendation : Option String
  isFeedbackSubmitted : Bool
deriving Repr, DecidableEq

/-- Enriched interview-event summary (`InterviewEvent` in `types.ts`). -/
structure InterviewEvent where
  id : String
  interviewTitle : String
  startTime : Nat
  endTime : Nat
  interviewers : List IntvSummary
deriving Repr, DecidableEq

/-- Enriched feedback entry (`InterviewFeedback` in `types.ts`). -/
structure InterviewFeedback where
  interviewTitle : String
  interviewer : String
  interviewerEmail : String
  submittedAt : Nat
  overallRecommendation : Option String
  feedbackText : Option String
  isFeedbackSubmitted : Bool
deriving Repr, DecidableEq

/-- Normalized candidate record (`Candidate` in `types.ts`). -/
structure Candidate where
  id : String
  applicationId : String
  name : String
  email : Option String
  phone : Option String
  currentStage : String
  pipelineStage : Option String
  stageType : Option String
  currentStageIndex : Option Nat
  totalStages : Option Nat
  stageProgress : Option String
  jobId : String
  companyId : String
  orgId : String
  orgName : Option String
  lastActivityAt : Nat
  daysInStage : Nat
  needsScheduling : Bool
  creditedTo : Option String
  source : Option String
  decisionStatus : Option String
  statusPriority : Option Int
  statusDueAt : Option Nat
  primaryEmailAddress : Option String
  phoneNumber : Option String
  location : Option String
  resumeUrl : Option String
  linkedInUrl : Option String
  githubUrl : Option String
  websiteUrl : Option String
  interviewEvents : Option (List InterviewEvent)
  allFeedback : Option (List InterviewFeedback)
  latestOverallRecommendation : Option String
  latestFeedbackAuthor : Option String
  latestFeedbackDate : Option Nat
  feedbackCount : Option Nat
deriving Repr, DecidableEq

/-- The three aggregated collections of one org fetch. -/
structure PipelineFetchResult where
  companies : List Company
  jobs : List Job
  candidates : List Candidate
deriving Repr, DecidableEq

/-- Lower-case a string character by character. -/
def lowerStr (s : String) : String :=
  ⟨s.data.map Char.toLower⟩

/-- Occurrence of `needle` as a contiguous subsequence of `hay`. -/
def containsSeq (needle : List Char) (hay : List Char) : Bool :=
  match hay with
  | [] => needle.isEmpty
  | _ :: t => needle.isPrefixOf hay || containsSeq needle t

/-- Substring containment, the model of `String.prototype.includes`. -/
def strContainsSub (hay needle : String) : Bool :=
  containsSeq needle.data hay.data

/-- Whitespace trim over the character list (the model of
`String.prototype.trim`). -/
def trimStr (s : String) : String :=
  ⟨((s.data.dropWhile Char.isWhitespace).reverse.dropWhile
      Char.isWhitespace).reverse⟩

/-- JS `a || b` for an optional string `a` and a string default `b`:
a missing or empty string falls through. -/
def strOrD (a : Option String) (b : String) : String :=
  match a with
  | some s => if s = "" then b else s
  | none => b

/-- JS `a || null` for an optional string: empty becomes `none`. -/
def strOrN (a : Option String) : Option String :=
  match a with
  | some s => if s = "" then none else some s
  | none => none

/-- JS `a || null` for an optional number: zero becomes `none`. -/
def numOrN (a : Option Int) : Option Int :=
  match a with
  | some n => if n = 0 then none else some n
  | none => none

/-- Counterpart of `computeDaysInStage`: whole days elapsed, clamped at
zero (truncated `Nat` subtraction models `Math.max(0, ...)`). -/
def computeDaysInStage (now lastActivityAt : Nat) : Nat :=
  (now - lastActivityAt) / 86400000

/-- Counterpart of `computeNeedsScheduling`: an interview-keyword stage
type with at least `threshold` days in stage. -/
def computeNeedsScheduling (stageType : Option String) (daysInStage : Nat)
    (threshold : Nat := 7) : Bool :=
  match stageType with
  | none => false
  | some st =>
    let interviewKeywords := ["interview", "onsite", "technical", "screening", "call"]
    interviewKeywords.any (fun k => strContainsSub (lowerStr st) k) &&
      decide (threshold ≤ daysInStage)

/-- Insertion-ordered map insert used for the `companies`/`jobs` maps:
only the first binding of a key is kept. -/
def mapInsertIfAbsent {α : Type} (m : List (String × α)) (k : String) (v : α) :
    List (String × α) :=
  if m.any (fun p => p.1 = k) then m else m ++ [(k, v)]

/-- Company name of an application: candidate company with the default
fallback of `normalizePipelineData` (including the trim recheck). -/
def appCompanyName (app : ApplicationResult) : String :=
  let c0 := strOrD app.candidate.company "Default Company"
  if trimStr c0 = "" then "Default Company" else c0

/-- Process one application row: extend the company and job maps and
build the normalized candidate (the second loop of
`normalizePipelineData`). -/
def normalizeApp (now : Nat) (orgId : String) (orgName : Option String)
    (acc : List (String × Company) × List (String × Job) × List Candidate)
    (app : ApplicationResult) :
    List (String × Company) × List (String × Job) × List Candidate :=
  let (companies, jobs, cands) := acc
  let companyName := appCompanyName app
  let companyId := "company-" ++ companyName
  let companies := mapInsertIfAbsent companies companyId ⟨companyId, companyName⟩
  let jobs := mapInsertIfAbsent jobs app.job.id ⟨app.job.id, app.job.title, companyId⟩
  let currentStage :=
    strOrD (app.applicationStatus.map (·.description))
      (strOrD (app.currentInterviewStage.map (·.stageType)) "Unknown")
  let stageType := strOrN (app.currentInterviewStage.map (·.stageType))
  let pipelineStage := strOrN (app.currentInterviewStage.bind (·.title))
  let lastActivityAt := app.createdAt
  let daysInStage := computeDaysInStage now lastActivityAt
  let needsScheduling := computeNeedsScheduling stageType daysInStage
  let creditedTo :=
    app.creditedToUser.map fun u =>
      let full := trimStr (u.firstName ++ " " ++ u.lastName)
      if full = "" then u.email else full
  let source := strOrN (app.source.map (·.title))
  let cand : Candidate :=
    { id := app.candidate.id
      applicationId := app.id
      name := app.candidate.name
      email := none
      phone := none
      currentStage := currentStage
      pipelineStage := pipelineStage
      stageType := stageType
      currentStageIndex := none
      totalStages := none
      stageProgress := none
      jobId := app.job.id
      companyId := companyId
      orgId := orgId
      orgName := orgName
      lastActivityAt := lastActivityAt
      daysInStage := daysInStage
      needsScheduling := needsScheduling
      creditedTo := creditedTo
      source := source
      decisionStatus := strOrN (app.applicationStatus.map (·.description))
      statusPriority := numOrN (app.applicationStatus.bind (·.priority))
      statusDueAt := app.applicationStatus.bind (·.dueAt)
      primaryEmailAddress := none
      phoneNumber := none
      location := none
      resumeUrl := none
      linkedInUrl := none
      githubUrl := none
      websiteUrl := none
      interviewEvents := none
      allFeedback := none
      latestOverallRecommendation := none
      latestFeedbackAuthor := none
      latestFeedbackDate := none
      feedbackCount := none }
  (companies, jobs, cands ++ [cand])

/-- Counterpart of `normalizePipelineData`. -/
def normalizePipelineData (now : Nat) (jobsPipelines : List JobPipelineRow)
    (applications : List ApplicationResult) (orgId : String)
    (orgName : Option String) : PipelineFetchResult :=
  let step1 : List (String × Company) × List (String × Job) :=
    jobsPipelines.foldl
      (fun (acc : List (String × Company) × List (String × Job)) jp =>
        let companyId := "company-" ++ "Default Company"
        let companies := mapInsertIfAbsent acc.1 companyId ⟨companyId, "Default Company"⟩
        let jobs := mapInsertIfAbsent acc.2 jp.jobId ⟨jp.jobId, jp.jobTitle, companyId⟩
        (companies, jobs))
      ([], [])
  let step2 :=
    applications.foldl (normalizeApp now orgId orgName) (step1.1, step1.2, [])
  ⟨step2.1.map (·.2), step2.2.1.map (·.2), step2.2.2⟩

/-- The paginated applications loop of `fetchPipelineForOrg`: repeat the
query while more data is reported; a failure keeps what was already
accumulated (the surrounding catch); fuel cuts off divergence. -/
def appsLoop (fuel : Nat) (acc : List ApplicationResult)
    (cursor : Option String) (w : W) : List ApplicationResult × W :=
  match fuel with
  | 0 => (acc, w)
  | fuel + 1 =>
    match graphqlQuery "ApiGetActiveApplications" false w with
    | (.error _, w) => (acc, w)
    | (.ok (.gqlApps results nextCursor more), w) =>
      let acc := acc ++ results
      if more then appsLoop fuel acc nextCursor w else (acc, w)
    | (.ok _, w) => (acc, w)

/-- The phases of `fetchPipelineForOrg` after the optional org switch:
job listing (errors rethrown), paginated applications, org-name lookup
(errors swallowed), normalization. -/
def pipelinePhases (fuel : Nat) (orgId : String) (switchedOrg : Bool)
    (w : W) : Except Err PipelineFetchResult × W :=
  match graphqlQuery "ApiOpenJobs" switchedOrg w with
  | (.error e, w) => (.error e, w)
  | (.ok (.gqlJobs jobsData), w) =>
    let (allApplications, w) := appsLoop fuel [] none w
    let (orgName, w) :=
      match graphqlQuery "ApiGetSessionUser" false w with
      | (.ok (.gqlUser oid onm), w) => (if oid = orgId then some onm else none, w)
      | (_, w) => (none, w)
    (.ok (normalizePipelineData w.now jobsData allApplications orgId orgName), w)
  | (.ok _, w) => (.error .gqlFailed, w)

/-- Counterpart of `fetchPipelineForOrg`: switch org context when a user
id is given (a switch failure is swallowed into an empty result), then
run the query phases. -/
def fetchPipelineForOrg (fuel : Nat) (orgId : String)
    (userId : Option String) (w : W) : Except Err PipelineFetchResult × W :=
  if (userId.getD "") ≠ "" && orgId ≠ "default" then
    match switchOrgContext (userId.getD "") w with
    | (.error _, w) => (.ok ⟨[], [], []⟩, w)
    | (.ok _, w) => pipelinePhases fuel orgId true w
  else pipelinePhases fuel orgId false w

/-- Feedback field names recognized by `extractFeedbackText`. -/
def feedbackFieldNames : List String :=
  ["overallFeedback", "overall_feedback", "feedback", "comments", "notes",
   "assessment", "evaluation"]

/-- Scan a list of form field entries for the first nonempty feedback
value (shared by the top level and the section scan). -/
def scanEntries (entries : List FieldEntry) : Option String :=
  match entries with
  | [] => none
  | e :: rest =>
    if feedbackFieldNames.any (fun nm => strContainsSub (lowerStr e.field) (lowerStr nm)) then
      match e.value with
      | some v => if trimStr v = "" then scanEntries rest else some (trimStr v)
      | none => scanEntries rest
    else scanEntries rest

/-- Counterpart of `extractFeedbackText`: top-level field entries first,
then the entries of each section. -/
def extractFeedbackText (render : Option FormRender) : Option String :=
  match render with
  | none => none
  | some r =>
    match scanEntries r.fieldEntries with
    | some v => some v
    | none =>
      r.sections.foldl
        (fun acc sec => match acc with | some v => some v | none => scanEntries sec)
        none

/-- Counterpart of `fetchApplicationDetails`: one detail query; every
failure path (thrown error, missing application) collapses to `none`. -/
def fetchApplicationDetails (applicationId : String) (w : W) :
    Option AppDetails × W :=
  match graphqlQuery "ApiApplication" false w with
  | (.ok (.gqlDetails (some app)), w) => (some app, w)
  | (.ok _, w) => (none, w)
  | (.error _, w) => (none, w)

/-- The enriched interview-event summaries of a detail payload. -/
def mkInterviewEvents (events : List IEvent) : List InterviewEvent :=
  events.map fun event =>
    { id := event.id
      interviewTitle := event.interview.title
      startTime := event.startTime
      endTime := event.endTime
      interviewers := event.interviewerEvents.map fun ie =>
        { name := ie.interviewer.firstName ++ " " ++ ie.interviewer.lastName
          email := ie.interviewer.email
          overallRecommendation :=
            strOrN (ie.scorecardSubmission.bind (·.overallRecommendation))
          isFeedbackSubmitted := ie.isFeedbackSubmitted } }

/-- The flattened feedback entries of a detail payload (submitted ones). -/
def mkAllFeedback (events : List IEvent) : List InterviewFeedback :=
  events.flatMap fun event =>
    (event.interviewerEvents.filter (·.isFeedbackSubmitted)).map fun ie =>
      { interviewTitle := event.interview.title
        interviewer := ie.interviewer.firstName ++ " " ++ ie.interviewer.lastName
        interviewerEmail := ie.interviewer.email
        submittedAt := (ie.scorecardSubmission.bind (·.submittedAt)).getD event.endTime
        overallRecommendation :=
          strOrN (ie.scorecardSubmission.bind (·.overallRecommendation))
        feedbackText :=
          extractFeedbackText (ie.scorecardSubmission.bind (·.submittedFormRender))
        isFeedbackSubmitted := ie.isFeedbackSubmitted }

/-- The interview plan used for stage positioning: the application plan,
else the default plan configured on the job. -/
def resolvePlan (d : AppDetails) : Option PlanInfo :=
  match d.interviewPlan with
  | some p => some p
  | none =>
    match d.job.bind (·.interviewPlansWithActivities) with
    | some cfgs =>
      match cfgs.find? (·.isDefault) with
      | some cfg => cfg.interviewPlan
      | none => none
    | none => none

/-- Apply one fetched detail payload to a candidate: the record spread
at the end of the enrichment callback. -/
def applyEnrichment (c : Candidate) (d : AppDetails) : Candidate :=
  let interviewEvents := mkInterviewEvents d.interviewEvents
  let allFeedback := mkAllFeedback d.interviewEvents
  let sortedFeedback :=
    (allFeedback.filter (fun f => f.submittedAt ≠ 0)).mergeSort
      (fun a b => b.submittedAt ≤ a.submittedAt)
  let latestFeedback := sortedFeedback.head?
  let stagePos : Option Nat × Option Nat × Option String :=
    match resolvePlan d, d.currentInterviewStage with
    | some plan, some cur =>
      let interviewStages :=
        plan.interviewStages.filter fun s =>
          s.stageType = "Active" || s.stageType = "Offer"
      let totalStages := interviewStages.length
      match interviewStages.findIdx? (fun s => s.id = cur.id) with
      | some stageIdx =>
        (some (stageIdx + 1), some totalStages,
         some (toString (stageIdx + 1) ++ "/" ++ toString totalStages))
      | none => (none, some totalStages, none)
    | _, _ => (none, none, none)
  { c with
    pipelineStage := strOrD (d.currentInterviewStage.bind (·.title)) "" |>
      (fun t => if t = "" then c.pipelineStage else some t)
    currentStageIndex := stagePos.1
    totalStages := stagePos.2.1
    stageProgress := stagePos.2.2
    interviewEvents := some interviewEvents
    allFeedback := some allFeedback
    latestOverallRecommendation :=
      strOrN (latestFeedback.bind (·.overallRecommendation))
    latestFeedbackAuthor := latestFeedback.map (·.interviewer)
    latestFeedbackDate := latestFeedback.map (·.submittedAt)
    feedbackCount := some allFeedback.length }

/-- Enrich one candidate: skip when not flagged (unless fetching all);
a failed detail fetch returns the original record. -/
def enrichOne (fetchAll : Bool) (c : Candidate) (w : W) : Candidate × W :=
  if !fetchAll && !c.needsScheduling then (c, w)
  else
    match fetchApplicationDetails c.applicationId w with
    | (none, w) => (c, w)
    | (some d, w) => (applyEnrichment c d, w)

/-- Enrich a batch in order (`Promise.all` preserves order and length). -/
def enrichBatch (fetchAll : Bool) (batch : List Candidate) (w : W) :
    List Candidate × W :=
  match batch with
  | [] => ([], w)
  | c :: rest =>
    let (c', w) := enrichOne fetchAll c w
    let (rest', w) := enrichBatch fetchAll rest w
    (c' :: rest', w)

/-- The batching loop over one org group, at most `mc` records per
batch; fuel cuts off the divergence of a zero batch size. -/
def enrichGroupBatches (fetchAll : Bool) (mc : Nat) (fuel : Nat)
    (cands : List Candidate) (w : W) : List Candidate × W :=
  match fuel with
  | 0 => (cands, w)
  | fuel + 1 =>
    match cands with
    | [] => ([], w)
    | _ =>
      let (batch', w) := enrichBatch fetchAll (cands.take mc) w
      let (rest', w) := enrichGroupBatches fetchAll mc fuel (cands.drop mc) w
      (batch' ++ rest', w)

/-- Append one candidate to its org group, creating the group at the end
on first sight (the JS `Map` grouping, insertion ordered). -/
def groupInsert (m : List (String × List Candidate)) (c : Candidate) :
    List (String × List Candidate) :=
  match m with
  | [] => [(c.orgId, [c])]
  | (k, g) :: rest =>
    if k = c.orgId then (k, g ++ [c]) :: rest
    else (k, g) :: groupInsert rest c

/-- Group candidates by org id, insertion ordered. -/
def groupByOrg (cands : List Candidate) : List (String × List Candidate) :=
  cands.foldl groupInsert []

/-- The `orgId -> userId` map built by `new Map(...)`: the last binding
of an id wins; a missing or empty user id is falsy. -/
def lookupUserId (orgInfos : List OrgInfoWithUserId) (orgId : String) : String :=
  ((orgInfos.filter (fun o => o.id = orgId)).getLast?.map (·.userId)).getD ""

/-- Process the org groups in order: no usable user id or a failed org
switch passes the whole group through unchanged; otherwise the group is
enriched batchwise under the switched context. -/
def enrichGroups (orgInfos : List OrgInfoWithUserId) (fetchAll : Bool)
    (mc : Nat) (groups : List (String × List Candidate))
    (currentOrgContext : Option String) (w : W) : List Candidate × W :=
  match groups with
  | [] => ([], w)
  | (orgId, orgCandidates) :: rest =>
    let userId := lookupUserId orgInfos orgId
    if userId = "" then
      let (r, w) := enrichGroups orgInfos fetchAll mc rest currentOrgContext w
      (orgCandidates ++ r, w)
    else if currentOrgContext = some orgId then
      let (g', w) := enrichGroupBatches fetchAll mc orgCandidates.length orgCandidates w
      let (r, w) := enrichGroups orgInfos fetchAll mc rest currentOrgContext w
      (g' ++ r, w)
    else
      match switchOrgContext userId w with
      | (.error _, w) =>
        let (r, w) := enrichGroups orgInfos fetchAll mc rest currentOrgContext w
        (orgCandidates ++ r, w)
      | (.ok _, w) =>
        let (g', w) := enrichGroupBatches fetchAll mc orgCandidates.length orgCandidates w
        let (r, w) := enrichGroups orgInfos fetchAll mc rest (some orgId) w
        (g' ++ r, w)

/-- Counterpart of `enrichCandidatesWithDetails`. -/
def enrichCandidatesWithDetails (candidates : List Candidate)
    (orgInfos : List OrgInfoWithUserId) (mc : Nat) (fetchAll : Bool)
    (w : W) : List Candidate × W :=
  enrichGroups orgInfos fetchAll mc (groupByOrg candidates) none w

/-- Options of `extractCommand` relevant to the orchestration core. -/
structure ExtractOptions where
  maxOrgs : Option Nat
  retries : Option Nat
  orgFilter : Option String
  detailed : Bool
  detailedConcurrent : Option Nat
deriving Repr, DecidableEq

/-- The outcome of an `extractCommand` run, by exit path. -/
inductive ExtractOutcome where
  | missingAuthCookies
  | discoveryFailed (e : Err)
  | noOrgsFound
  | noFilterMatch
  | noCandidates (failedOrgs : List String)
  | done (companies : List Company) (jobs : List Job)
      (candidates : List Candidate) (failedOrgs : List String)
deriving Repr, DecidableEq

/-- The per-org attempt loop: up to `n` calls of `fetchPipelineForOrg`,
stopping at the first success. -/
def attemptsOrg (n : Nat) (fuel : Nat) (org : OrgInfoWithUserId) (w : W) :
    Option PipelineFetchResult × W :=
  match n with
  | 0 => (none, w)
  | n + 1 =>
    match fetchPipelineForOrg fuel org.id (some org.userId) w with
    | (.ok r, w) => (some r, w)
    | (.error _, w) => attemptsOrg n fuel org w

/-- The aggregate of one orchestration loop: companies, jobs,
candidates and the names of failed orgs. -/
structure ExtractAgg where
  companies : List Company
  jobs : List Job
  candidates : List Candidate
  failedOrgs : List String
deriving Repr, DecidableEq

/-- The org loop of `extractCommand`: an org without user id is
recorded failed and skipped; otherwise its attempts either contribute
records or record a failure; the loop always advances to the next org. -/
def extractLoop (maxRetries fuel : Nat) (orgs : List OrgInfoWithUserId)
    (w : W) : ExtractAgg × W :=
  match orgs with
  | [] => (⟨[], [], [], []⟩, w)
  | org :: rest =>
    let orgDisplayName := if org.name = "" then org.id else org.name
    if org.userId = "" then
      let (agg, w) := extractLoop maxRetries fuel rest w
      (⟨agg.companies, agg.jobs, agg.candidates,
        (orgDisplayName ++ " - no userId") :: agg.failedOrgs⟩, w)
    else
      match attemptsOrg maxRetries fuel org w with
      | (some r, w) =>
        let (agg, w) := extractLoop maxRetries fuel rest w
        (⟨r.companies ++ agg.companies, r.jobs ++ agg.jobs,
          r.candidates ++ agg.candidates, agg.failedOrgs⟩, w)
      | (none, w) =>
        let (agg, w) := extractLoop maxRetries fuel rest w
        (⟨agg.companies, agg.jobs, agg.candidates,
          orgDisplayName :: agg.failedOrgs⟩, w)

/-- Counterpart of `extractCommand` (session loading and file export are
external collaborators and are outside the model). -/
def extractCommandModel (opts : ExtractOptions) (fuel : Nat) (w : W) :
    ExtractOutcome × W :=
  if ¬ hasAuthCookies w.sess then (.missingAuthCookies, w)
  else
    match fetchAllAvailableOrgs w with
    | (.error e, w) => (.discoveryFailed e, w)
    | (.ok orgInfos, w) =>
      if orgInfos.isEmpty then (.noOrgsFound, w)
      else
        let filtered :=
          match opts.orgFilter with
          | some f =>
            if f = "" then orgInfos
            else orgInfos.filter fun o =>
              strContainsSub (lowerStr o.name) (lowerStr f)
          | none => orgInfos
        if (opts.orgFilter.getD "") ≠ "" ∧ filtered.isEmpty then (.noFilterMatch, w)
        else
          let orgsToProcess :=
            match opts.maxOrgs with
            | some m => if m = 0 then filtered else filtered.take m
            | none => filtered
          let maxRetries :=
            match opts.retries with
            | some n => if n = 0 then 1 else n
            | none => 1
          let (agg, w) := extractLoop maxRetries fuel orgsToProcess w
          if agg.candidates.isEmpty then (.noCandidates agg.failedOrgs, w)
          else if opts.detailed then
            let mc :=
              match opts.detailedConcurrent with
              | some n => if n = 0 then 5 else n
              | none => 5
            let (cands', w) :=
              enrichCandidatesWithDetails agg.candidates orgInfos mc true w
            (.done agg.companies agg.jobs cands' agg.failedOrgs, w)
          else (.done agg.companies agg.jobs agg.candidates agg.failedOrgs, w)

/-- Decidable equality for `Except`, used to evaluate run outcomes. -/
instance {ε α : Type} [DecidableEq ε] [DecidableEq α] : DecidableEq (Except ε α)
  | .ok x, .ok y =>
    if h : x = y then .isTrue (h ▸ rfl)
    else .isFalse (fun hc => h (Except.ok.inj hc))
  | .error e, .error f =>
    if h : e = f then .isTrue (h ▸ rfl)
    else .isFalse (fun hc => h (Except.error.inj hc))
  | .ok _, .error _ => .isFalse (fun hc => Except.noConfusion hc)
  | .error _, .ok _ => .isFalse (fun hc => Except.noConfusion hc)

/-- A session fixture with a valid auth cookie and no cached token. -/
def sess0 : AshbySession := ⟨[("ashby_session_token", "x")], none, []⟩

/-- An application-row fixture. -/
def appX (i : String) : ApplicationResult :=
  { id := "app-" ++ i
    job := ⟨"job1", "Engineer"⟩
    candidate := ⟨"cand-" ++ i, "Name " ++ i, some "Acme"⟩
    source := none
    creditedToUser := none
    applicationStatus := some ⟨"Needs Decision", some 1, none⟩
    createdAt := 0
    currentInterviewStage := some ⟨"st1", some "Tech Screen", "Active"⟩ }

/-- A remote that always answers with an empty page, an unchanged cursor
and the more-data flag set. -/
def constPages : Nat → Resp := fun _ => .gqlApps [] (some "c0") true

/-- A remote script for one org fetch whose verification query reports
the tenant `orgOther` although the switch targeted `org1`. -/
def env1 : Nat → Resp :=
  scriptEnv [.csrfOk "t1", .switchOk, .csrfOk "t2", .gqlUser "orgOther" "Other",
    .csrfOk "t3", .gqlJobs [], .gqlApps [] none false, .gqlUser "org1" "O1"]

/-- The initial world of the mismatched-verification run. -/
def w1 : W := mkW env1 sess0 0

/-- Org descriptor fixtures for the two-tenant runs. -/
def orgA : OrgInfoWithUserId := ⟨"orgA", "A", "uA"⟩

/-- Second org descriptor fixture. -/
def orgB : OrgInfoWithUserId := ⟨"orgB", "B", "uB"⟩

/-- A remote script where org A succeeds with three candidates and then
org B's switch request fails. -/
def env3 : Nat → Resp :=
  scriptEnv [.csrfOk "a1", .switchOk, .csrfOk "a2", .gqlUser "orgA" "A",
    .csrfOk "a3", .gqlJobs [],
    .gqlApps [appX "1", appX "2", appX "3"] none false, .gqlUser "orgA" "A",
    .csrfOk "b1", .netErr]

/-- The initial world of the A-succeeds-B-switch-fails run. -/
def w3 : W := mkW env3 sess0 0

/-- A remote script where org B hits a 401 on the forced token refresh
before its job query (a session-invalid failure), after which org A
still answers normally. -/
def env2 : Nat → Resp :=
  scriptEnv [.csrfOk "b1", .switchOk, .csrfOk "b2", .gqlUser "orgB" "B", .csrf401,
    .csrfOk "a1", .switchOk, .csrfOk "a2", .gqlUser "orgA" "A",
    .csrfOk "a3", .gqlJobs [], .gqlApps [appX "1"] none false, .gqlUser "orgA" "A"]

/-- The initial world of the session-invalid-then-continue run. -/
def w2 : W := mkW env2 sess0 0

/-- Provenance of one enrichment output record: the input record either
unchanged or augmented by one fetched detail payload. -/
def enrichedFrom (c c' : Candidate) : Prop :=
  c' = c ∨ ∃ d : AppDetails, c' = applyEnrichment c d

/-- The identity pair of a record: candidate id and application id. -/
def keyOf (c : Candidate) : String × String := (c.id, c.applicationId)

/-- A concrete candidate fixture. -/
def candFix (i orgId : String) : Candidate :=
  { id := "cand-" ++ i
    applicationId := "app-" ++ i
    name := "N" ++ i
    email := none
    phone := none
    currentStage := "S"
    pipelineStage := none
    stageType := some "Active"
    currentStageIndex := none
    totalStages := none
    stageProgress := none
    jobId := "j"
    companyId := "co"
    orgId := orgId
    orgName := none
    lastActivityAt := 0
    daysInStage := 0
    needsScheduling := true
    creditedTo := none
    source := none
    decisionStatus := none
    statusPriority := none
    statusDueAt := none
    primaryEmailAddress := none
    phoneNumber := none
    location := none
    resumeUrl := none
    linkedInUrl := none
    githubUrl := none
    websiteUrl := none
    interviewEvents := none
    allFeedback := none
    latestOverallRecommendation := none
    latestFeedbackAuthor := none
    latestFeedbackDate := none
    feedbackCount := none }

/-- A remote that fails every call. -/
def envNone : Nat → Resp := fun _ => .netErr

/-- A remote script where the identities list is empty although the
session-user query reports a live tenant. -/
def env8 : Nat → Resp :=
  scriptEnv [.csrfOk "t", .identsOk [], .gqlUser "org1" "Org One"]

/-- The initial world of the empty-discovery run. -/
def w8 : W := mkW env8 sess0 0

end Ashby

namespace Ashby

lemma containsSeq_iff (n : List Char) (h : List Char) :
    containsSeq n h = true ↔ n <:+: h := by
  induction h with
  | nil => simp [containsSeq, List.isEmpty_iff, List.infix_nil]
  | cons a t ih =>
    simp [containsSeq, Bool.or_eq_true, List.isPrefixOf_iff_prefix, ih,
      List.infix_cons_iff]

lemma strContains_lower (s needle : String)
    (hn : needle.data.map Char.toLower = needle.data)
    (h : strContainsSub s needle = true) :
    strContainsSub (lowerStr s) needle = true := by
  unfold strContainsSub at h ⊢
  unfold lowerStr
  rw [containsSeq_iff] at h ⊢
  have h2 : needle.data.map Char.toLower <:+: s.data.map Char.toLower :=
    h.map Char.toLower
  rw [hn] at h2
  exact h2

/-- C9: the scheduling-needed predicate flags a stage type containing
"interview" with seven days in stage, does not flag it with six days in
stage, and never flags the stage type "offer". -/
theorem computeNeedsScheduling_thresholds :
    (∀ s : String, strContainsSub s "interview" = true →
        computeNeedsScheduling (some s) 7 = true) ∧
    (∀ s : String, strContainsSub s "interview" = true →
        computeNeedsScheduling (some s) 6 = false) ∧
    (∀ d : Nat, computeNeedsScheduling (some "offer") d = false) := by
  refine ⟨?_, ?_, ?_⟩
  · intro s hs
    have hl : strContainsSub (lowerStr s) "interview" = true :=
      strContains_lower s "interview" (by decide) hs
    simp [computeNeedsScheduling, hl]
  · intro s _hs
    simp [computeNeedsScheduling]
  · intro d
    have hk : (["interview", "onsite", "technical", "screening", "call"].any
        fun k => strContainsSub (lowerStr "offer") k) = false := by decide
    simp only [computeNeedsScheduling, hk, Bool.false_and]

/-- C9 witness: evaluation of the predicate at concrete inputs. -/
theorem computeNeedsScheduling_thresholds_witness :
    strContainsSub "Tech interview" "interview" = true ∧
    computeNeedsScheduling (some "Tech interview") 7 = true ∧
    computeNeedsScheduling (some "Tech interview") 6 = false ∧
    computeNeedsScheduling (some "offer") 42 = false :=
  ⟨by decide,
   computeNeedsScheduling_thresholds.1 "Tech interview" (by decide),
   computeNeedsScheduling_thresholds.2.1 "Tech interview" (by decide),
   computeNeedsScheduling_thresholds.2.2 42⟩

/-- C4: against a remote returning a first page with the more flag set
and a second page without it, the pagination loop returns the two pages
concatenated in arrival order and issues exactly two query calls. -/
theorem runPaginated_two_pages (p1 p2 : List ApplicationResult)
    (c1 : Option String) (t : String) (cook : List (String × String))
    (oids : List String) (f now0 : Nat)
    (h1 : p1.length = 100) (h2 : p2.length = 20) :
    appsLoop (f + 2) [] none
        (mkW (scriptEnv [.gqlApps p1 c1 true, .gqlApps p2 none false])
          ⟨cook, some t, oids⟩ now0) =
      (p1 ++ p2,
       ⟨⟨cook, some t, oids⟩,
        scriptEnv [.gqlApps p1 c1 true, .gqlApps p2 none false], 2,
        [.query "ApiGetActiveApplications", .query "ApiGetActiveApplications"],
        now0⟩) ∧
    (p1 ++ p2).length = 120 := by
  constructor
  · simp [appsLoop, graphqlQuery, gqlPost, net, mkW, scriptEnv]
  · simp [h1, h2]

/-- C4 witness: the two-page run at concrete pages of 100 and 20 rows. -/
theorem runPaginated_two_pages_witness :
    (List.replicate 100 (appX "a")).length = 100 ∧
    (List.replicate 20 (appX "b")).length = 20 ∧
    (appsLoop 2 [] none
        (mkW (scriptEnv [.gqlApps (List.replicate 100 (appX "a")) (some "c") true,
            .gqlApps (List.replicate 20 (appX "b")) none false])
          ⟨[], some "t", []⟩ 0) =
      (List.replicate 100 (appX "a") ++ List.replicate 20 (appX "b"),
       ⟨⟨[], some "t", []⟩,
        scriptEnv [.gqlApps (List.replicate 100 (appX "a")) (some "c") true,
          .gqlApps (List.replicate 20 (appX "b")) none false], 2,
        [.query "ApiGetActiveApplications", .query "ApiGetActiveApplications"],
        0⟩) ∧
      (List.replicate 100 (appX "a") ++ List.replicate 20 (appX "b")).length = 120) :=
  ⟨by simp, by simp,
   runPaginated_two_pages (List.replicate 100 (appX "a"))
     (List.replicate 20 (appX "b")) (some "c") "t" [] [] 0 0
     (by simp) (by simp)⟩

/-- C5 amended: the pagination loop keeps issuing queries while the
remote reports more data, with no guard on a cursor that fails to
advance: against a remote that always returns the same cursor with the
more flag set, the loop runs until its fuel is exhausted (the source
loops forever), and no pagination-inconsistency failure is produced. -/
theorem appsLoop_nonadvancing_cursor (fuel : Nat) :
    ∀ (acc : List ApplicationResult) (cur : Option String)
      (cook : List (String × String)) (t : String) (oids : List String)
      (calls0 : Nat) (tr : List Ev) (now0 : Nat),
    appsLoop fuel acc cur ⟨⟨cook, some t, oids⟩, constPages, calls0, tr, now0⟩ =
      (acc, ⟨⟨cook, some t, oids⟩, constPages, calls0 + fuel,
        tr ++ List.replicate fuel (.query "ApiGetActiveApplications"), now0⟩) := by
  induction fuel with
  | zero => intro acc cur cook t oids calls0 tr now0; simp [appsLoop]
  | succ n ih =>
    intro acc cur cook t oids calls0 tr now0
    have hstep : constPages calls0 = .gqlApps [] (some "c0") true := rfl
    simp [appsLoop, graphqlQuery, gqlPost, net, hstep, ih,
      List.replicate_succ, List.append_assoc]
    omega

/-- C5 counterexample: with a non-advancing cursor and the more flag
always set, five fuel steps issue five queries and deliver zero
records — the iteration count is not bounded by the total record count
and no pagination-inconsistency failure stops the loop. -/
theorem appsLoop_unbounded_iterations_cex :
    (appsLoop 5 [] none (mkW constPages ⟨[("ashby_session_token", "x")], some "t0", []⟩ 0)).1 = [] ∧
    (appsLoop 5 [] none (mkW constPages ⟨[("ashby_session_token", "x")], some "t0", []⟩ 0)).2.calls = 5 :=
  ⟨rfl, rfl⟩

/-- C7: a token fetch that is answered 401 fails with the
session-invalid classification after that single request, no matter how
many retries remain; any other failed answer is retried. -/
theorem fetchCsrfToken_auth_failure (n : Nat) (w : W)
    (hc : hasAuthCookies w.sess = true) :
    fetchCsrfToken n w = csrfAttempts n w ∧
    (w.env w.calls = .csrf401 →
      csrfAttempts n w =
        (.error .sessionInvalid,
         { w with calls := w.calls + 1, trace := w.trace ++ [.csrfFetch] })) ∧
    ((∀ t, w.env w.calls ≠ .csrfOk t) → w.env w.calls ≠ .csrf401 →
      csrfAttempts (n + 1) w =
        csrfAttempts n { w with calls := w.calls + 1, trace := w.trace ++ [.csrfFetch] }) := by
  refine ⟨by simp [fetchCsrfToken, hc], ?_, ?_⟩
  · intro h401
    rw [csrfAttempts.eq_def]
    simp [net, h401]
  · intro hok h401
    rw [csrfAttempts.eq_def]
    cases hr : w.env w.calls with
    | csrfOk t => exact absurd hr (hok t)
    | csrf401 => exact absurd hr h401
    | _ => simp [net, hr]

lemma hasAuthCookies_retok (s : AshbySession) (t : Option String) :
    hasAuthCookies { cookies := s.cookies, csrfToken := t, orgIds := s.orgIds } =
      hasAuthCookies s := rfl

lemma gqlPost_snd (op : String) (w : W) :
    (gqlPost op w).2 =
      { w with calls := w.calls + 1, trace := w.trace ++ [.query op] } := by
  unfold gqlPost net
  cases hr : w.env w.calls <;> simp [hr]

lemma graphqlQuery_snd_of_token (op : String) (w : W) (t : String)
    (ht : w.sess.csrfToken = some t) :
    (graphqlQuery op false w).2 =
      { w with calls := w.calls + 1, trace := w.trace ++ [.query op] } := by
  unfold graphqlQuery
  rw [ht]
  simpa using gqlPost_snd op w

/-- C1 counterexample: the verification query after the switch to tenant
`org1` reports the different tenant `orgOther`, yet `switchOrgContext`
reports success, the pipeline fetch succeeds, and the extraction query
for the tenant is still issued — no `SwitchFailed` outcome occurs. -/
theorem switch_verification_mismatch_cex :
    env1 3 = .gqlUser "orgOther" "Other" ∧
    "orgOther" ≠ "org1" ∧
    (switchOrgContext "u1" w1).1 = .ok () ∧
    (fetchPipelineForOrg 2 "org1" (some "u1") w1).1 = .ok ⟨[], [], []⟩ ∧
    Ev.query "ApiOpenJobs" ∈ (fetchPipelineForOrg 2 "org1" (some "u1") w1).2.trace := by
  refine ⟨by decide, by decide, by decide, by decide, by decide⟩

/-- C1 amended: whenever the switch request and the post-switch token
refresh succeed, the switcher reports success for every outcome of the
verification query — a failing verification or one reporting a different
tenant is only logged — and the extraction queries for the tenant run
anyway; no VerificationMismatch failure state exists in the code. -/
theorem switch_verification_outcome_ignored
    (u orgId : String) (r : Resp) (t1 t2 t3 : String)
    (jl : List JobPipelineRow) (al : List ApplicationResult)
    (oid onm : String) (s : AshbySession) (now0 : Nat)
    (hs : hasAuthCookies s = true) (hu : u ≠ "") (ho : orgId ≠ "default") :
    (switchOrgContext u (mkW (scriptEnv [.csrfOk t1, .switchOk, .csrfOk t2, r,
        .csrfOk t3, .gqlJobs jl, .gqlApps al none false, .gqlUser oid onm]) s now0)).1 =
      .ok () ∧
    (fetchPipelineForOrg 1 orgId (some u) (mkW (scriptEnv [.csrfOk t1, .switchOk,
        .csrfOk t2, r, .csrfOk t3, .gqlJobs jl, .gqlApps al none false,
        .gqlUser oid onm]) s now0)).1 =
      .ok (normalizePipelineData now0 jl al orgId
        (if oid = orgId then some onm else none)) ∧
    Ev.query "ApiOpenJobs" ∈
      (fetchPipelineForOrg 1 orgId (some u) (mkW (scriptEnv [.csrfOk t1, .switchOk,
        .csrfOk t2, r, .csrfOk t3, .gqlJobs jl, .gqlApps al none false,
        .gqlUser oid onm]) s now0)).2.trace := by
  cases r <;>
    simp [fetchPipelineForOrg, switchOrgContext, pipelinePhases, appsLoop,
      graphqlQuery, gqlPost, fetchCsrfToken, csrfAttempts, net, setTok, mkW,
      scriptEnv, hasAuthCookies_retok, hs, hu, ho]

/-- C1 amended witness: the amended behavior at the mismatch script. -/
theorem switch_verification_outcome_ignored_witness :
    hasAuthCookies sess0 = true ∧ ("u1" : String) ≠ "" ∧
    ("org1" : String) ≠ "default" ∧
    ((switchOrgContext "u1" (mkW (scriptEnv [.csrfOk "t1", .switchOk, .csrfOk "t2",
        .gqlUser "orgOther" "Other", .csrfOk "t3", .gqlJobs [], .gqlApps [] none false,
        .gqlUser "org1" "O1"]) sess0 0)).1 = .ok () ∧
      (fetchPipelineForOrg 1 "org1" (some "u1") (mkW (scriptEnv [.csrfOk "t1",
        .switchOk, .csrfOk "t2", .gqlUser "orgOther" "Other", .csrfOk "t3",
        .gqlJobs [], .gqlApps [] none false, .gqlUser "org1" "O1"]) sess0 0)).1 =
        .ok (normalizePipelineData 0 [] [] "org1"
          (if ("org1" : String) = "org1" then some "O1" else none)) ∧
      Ev.query "ApiOpenJobs" ∈
        (fetchPipelineForOrg 1 "org1" (some "u1") (mkW (scriptEnv [.csrfOk "t1",
          .switchOk, .csrfOk "t2", .gqlUser "orgOther" "Other", .csrfOk "t3",
          .gqlJobs [], .gqlApps [] none false, .gqlUser "org1" "O1"]) sess0 0)).2.trace) :=
  ⟨by decide, by decide, by decide,
   switch_verification_outcome_ignored "u1" "org1" (.gqlUser "orgOther" "Other")
     "t1" "t2" "t3" [] [] "org1" "O1" sess0 0 (by decide) (by decide) (by decide)⟩

/-- C2 counterexample: tenant `orgB` fails with the session-invalid
classification, yet tenant `orgA`, later in the list, is still switched
to and extracted, and orgB is merely recorded in the failure list. -/
theorem session_invalid_does_not_abort_cex :
    (fetchPipelineForOrg 2 "orgB" (some "uB") w2).1 = .error .sessionInvalid ∧
    (extractLoop 1 2 [orgB, orgA] w2).1.failedOrgs = ["B"] ∧
    (extractLoop 1 2 [orgB, orgA] w2).1.candidates.length = 1 ∧
    Ev.switchPost "uA" ∈ (extractLoop 1 2 [orgB, orgA] w2).2.trace := by
  exact ⟨by decide, by decide, by decide, by decide⟩

/-- C2 amended: the org loop never aborts: processing a list split into
any prefix and suffix equals processing the prefix and then the suffix,
whatever failures (including session-invalid ones) the prefix hits, and
the prefix's aggregated records are kept in the output. -/
theorem extractLoop_never_aborts (mr fuel : Nat)
    (pre post : List OrgInfoWithUserId) :
    ∀ w : W,
    extractLoop mr fuel (pre ++ post) w =
      (⟨(extractLoop mr fuel pre w).1.companies ++
          (extractLoop mr fuel post (extractLoop mr fuel pre w).2).1.companies,
        (extractLoop mr fuel pre w).1.jobs ++
          (extractLoop mr fuel post (extractLoop mr fuel pre w).2).1.jobs,
        (extractLoop mr fuel pre w).1.candidates ++
          (extractLoop mr fuel post (extractLoop mr fuel pre w).2).1.candidates,
        (extractLoop mr fuel pre w).1.failedOrgs ++
          (extractLoop mr fuel post (extractLoop mr fuel pre w).2).1.failedOrgs⟩,
       (extractLoop mr fuel post (extractLoop mr fuel pre w).2).2) := by
  induction pre with
  | nil => intro w; simp [extractLoop]
  | cons org rest ih =>
    intro w
    by_cases hid : org.userId = ""
    · simp [extractLoop, hid, ih]
    · cases hatt : attemptsOrg mr fuel org w with
      | mk res wa =>
        cases res <;> simp [extractLoop, hid, hatt, ih, List.append_assoc]

/-- C3 counterexample: tenant A extracts three candidates; tenant B's
switch request fails, but B's run is reported as an empty success — the
failure list stays empty instead of naming B, while A's records are in
the output. -/
theorem partial_failure_silent_drop_cex :
    (extractLoop 1 2 [orgA] w3).1.candidates.length = 3 ∧
    (switchOrgContext "uB" (extractLoop 1 2 [orgA] w3).2).1 = .error .switchFailed ∧
    (extractLoop 1 2 [orgA, orgB] w3).1.candidates =
      (extractLoop 1 2 [orgA] w3).1.candidates ∧
    (extractLoop 1 2 [orgA, orgB] w3).1.failedOrgs = [] := by
  exact ⟨by decide, by decide, by decide, by decide⟩

/-- C3 amended: when tenant A succeeds and tenant B's switch fails, A's
records are all preserved in the output, but B's switch failure is
swallowed into an empty successful result: the failure list is empty
and carries no entry for B. -/
theorem tenant_switch_failure_swallowed (mr fuel : Nat)
    (A B : OrgInfoWithUserId) (w : W) (rA : PipelineFetchResult) (e : Err)
    (hmr : 0 < mr) (hA : A.userId ≠ "") (hB : B.userId ≠ "")
    (hBd : B.id ≠ "default")
    (hAok : (attemptsOrg mr fuel A w).1 = some rA)
    (hBsw : (switchOrgContext B.userId (attemptsOrg mr fuel A w).2).1 = .error e) :
    (extractLoop mr fuel [A, B] w).1 =
      ⟨rA.companies, rA.jobs, rA.candidates, []⟩ := by
  obtain ⟨mr, rfl⟩ : ∃ k, mr = k + 1 := ⟨mr - 1, by omega⟩
  cases hq : attemptsOrg (mr + 1) fuel A w with
  | mk resA wA =>
    rw [hq] at hAok hBsw
    simp only at hAok hBsw
    cases hsw : switchOrgContext B.userId wA with
    | mk er wB =>
      rw [hsw] at hBsw
      simp only at hBsw
      have hpipe : fetchPipelineForOrg fuel B.id (some B.userId) wA =
          (.ok ⟨[], [], []⟩, wB) := by
        unfold fetchPipelineForOrg
        have hcond : ((Option.getD (some B.userId) "" ≠ "" : Bool) &&
            (B.id ≠ "default" : Bool)) = true := by simp [hB, hBd]
        rw [hcond]
        simp only [if_true, Option.getD_some]
        rw [hsw, hBsw]
      have hattB : attemptsOrg (mr + 1) fuel B wA = (some ⟨[], [], []⟩, wB) := by
        unfold attemptsOrg
        rw [hpipe]
      simp [extractLoop, hA, hB, hq, hAok, hattB]

/-- C3 amended witness: the amended behavior at the concrete script. -/
theorem tenant_switch_failure_swallowed_witness :
    0 < 1 ∧ orgA.userId ≠ "" ∧ orgB.userId ≠ "" ∧ orgB.id ≠ "default" ∧
    (attemptsOrg 1 2 orgA w3).1 =
      some ((attemptsOrg 1 2 orgA w3).1.getD ⟨[], [], []⟩) ∧
    (switchOrgContext orgB.userId (attemptsOrg 1 2 orgA w3).2).1 =
      .error .switchFailed ∧
    (extractLoop 1 2 [orgA, orgB] w3).1 =
      ⟨((attemptsOrg 1 2 orgA w3).1.getD ⟨[], [], []⟩).companies,
       ((attemptsOrg 1 2 orgA w3).1.getD ⟨[], [], []⟩).jobs,
       ((attemptsOrg 1 2 orgA w3).1.getD ⟨[], [], []⟩).candidates, []⟩ :=
  ⟨by decide, by decide, by decide, by decide, by decide, by decide,
   tenant_switch_failure_swallowed 1 2 orgA orgB w3
     ((attemptsOrg 1 2 orgA w3).1.getD ⟨[], [], []⟩) .switchFailed
     (by decide) (by decide) (by decide) (by decide) (by decide) (by decide)⟩

/-- C8 counterexample: with an empty remote identities list but a live
session tenant, the fallback discovery returns the synthetic
descriptor, yet the orchestrator — which calls `fetchAllAvailableOrgs`
directly — reports that no organizations were found and stops. -/
theorem empty_discovery_no_fallback_cex :
    (fetchAvailableOrgs w8).1 = .ok [⟨"org1", "Org One"⟩] ∧
    (extractCommandModel ⟨none, none, none, false, none⟩ 2 w8).1 = .noOrgsFound := by
  exact ⟨by decide, by decide⟩

/-- C8 amended: `fetchAvailableOrgs` does fall back to a single
synthetic descriptor for the implicitly bound tenant when the remote
list is empty, but the orchestrator bypasses it: `extractCommand` uses
`fetchAllAvailableOrgs` directly and aborts with a no-organizations
outcome on an empty remote list. -/
theorem discovery_fallback_bypassed
    (t oid onm : String) (s : AshbySession) (now0 fuel : Nat)
    (opts : ExtractOptions) (hs : hasAuthCookies s = true) (ho : oid ≠ "") :
    (fetchAvailableOrgs
        (mkW (scriptEnv [.csrfOk t, .identsOk [], .gqlUser oid onm]) s now0)).1 =
      .ok [⟨oid, if onm = "" then oid else onm⟩] ∧
    (extractCommandModel opts fuel
        (mkW (scriptEnv [.csrfOk t, .identsOk [], .gqlUser oid onm]) s now0)).1 =
      .noOrgsFound := by
  constructor
  · simp [fetchAvailableOrgs, fetchAllAvailableOrgs, fetchCsrfToken, csrfAttempts,
      graphqlQuery, gqlPost, net, setTok, mkW, scriptEnv, dedupOrgs,
      hasAuthCookies_retok, hs, ho]
  · simp [extractCommandModel, fetchAllAvailableOrgs, fetchCsrfToken, csrfAttempts,
      net, setTok, mkW, scriptEnv, dedupOrgs, hasAuthCookies_retok, hs]

/-- C8 amended witness: the amended behavior at the concrete script. -/
theorem discovery_fallback_bypassed_witness :
    hasAuthCookies sess0 = true ∧ ("org1" : String) ≠ "" ∧
    ((fetchAvailableOrgs
        (mkW (scriptEnv [.csrfOk "t", .identsOk [], .gqlUser "org1" "Org One"]) sess0 0)).1 =
      .ok [⟨"org1", if ("Org One" : String) = "" then "org1" else "Org One"⟩] ∧
    (extractCommandModel ⟨none, none, none, false, none⟩ 3
        (mkW (scriptEnv [.csrfOk "t", .identsOk [], .gqlUser "org1" "Org One"]) sess0 0)).1 =
      .noOrgsFound) :=
  ⟨by decide, by decide,
   discovery_fallback_bypassed "t" "org1" "Org One" sess0 0 3
     ⟨none, none, none, false, none⟩ (by decide) (by decide)⟩

lemma csrfAttempts_struct (n : Nat) : ∀ w : W, ∃ k, 1 ≤ k ∧
    (csrfAttempts n w).2.sess = w.sess ∧
    (csrfAttempts n w).2.env = w.env ∧
    (csrfAttempts n w).2.now = w.now ∧
    (csrfAttempts n w).2.calls = w.calls + k ∧
    (csrfAttempts n w).2.trace = w.trace ++ List.replicate k .csrfFetch := by
  induction n with
  | zero =>
    intro w
    refine ⟨1, le_refl 1, ?_⟩
    rw [csrfAttempts.eq_def]
    cases hr : w.env w.calls <;> simp [net, hr]
  | succ n ih =>
    intro w
    rw [csrfAttempts.eq_def]
    cases hr : w.env w.calls with
    | csrfOk t => exact ⟨1, le_refl 1, by simp [net, hr]⟩
    | csrf401 => exact ⟨1, le_refl 1, by simp [net, hr]⟩
    | netErr =>
      obtain ⟨k, hk, h1, h2, h3, h4, h5⟩ :=
        ih { w with calls := w.calls + 1, trace := w.trace ++ [.csrfFetch] }
      refine ⟨k + 1, by omega, ?_⟩
      simp only [net, hr]
      refine ⟨h1, h2, h3,
        by rw [h4]; show w.calls + 1 + k = w.calls + (k + 1); omega, ?_⟩
      rw [h5]
      simp [List.replicate_succ, List.append_assoc]
    | switchOk =>
      obtain ⟨k, hk, h1, h2, h3, h4, h5⟩ :=
        ih { w with calls := w.calls + 1, trace := w.trace ++ [.csrfFetch] }
      refine ⟨k + 1, by omega, ?_⟩
      simp only [net, hr]
      refine ⟨h1, h2, h3,
        by rw [h4]; show w.calls + 1 + k = w.calls + (k + 1); omega, ?_⟩
      rw [h5]
      simp [List.replicate_succ, List.append_assoc]
    | gqlUser a b =>
      obtain ⟨k, hk, h1, h2, h3, h4, h5⟩ :=
        ih { w with calls := w.calls + 1, trace := w.trace ++ [.csrfFetch] }
      refine ⟨k + 1, by omega, ?_⟩
      simp only [net, hr]
      refine ⟨h1, h2, h3,
        by rw [h4]; show w.calls + 1 + k = w.calls + (k + 1); omega, ?_⟩
      rw [h5]
      simp [List.replicate_succ, List.append_assoc]
    | gqlJobs a =>
      obtain ⟨k, hk, h1, h2, h3, h4, h5⟩ :=
        ih { w with calls := w.calls + 1, trace := w.trace ++ [.csrfFetch] }
      refine ⟨k + 1, by omega, ?_⟩
      simp only [net, hr]
      refine ⟨h1, h2, h3,
        by rw [h4]; show w.calls + 1 + k = w.calls + (k + 1); omega, ?_⟩
      rw [h5]
      simp [List.replicate_succ, List.append_assoc]
    | gqlApps a b c =>
      obtain ⟨k, hk, h1, h2, h3, h4, h5⟩ :=
        ih { w with calls := w.calls + 1, trace := w.trace ++ [.csrfFetch] }
      refine ⟨k + 1, by omega, ?_⟩
      simp only [net, hr]
      refine ⟨h1, h2, h3,
        by rw [h4]; show w.calls + 1 + k = w.calls + (k + 1); omega, ?_⟩
      rw [h5]
      simp [List.replicate_succ, List.append_assoc]
    | gqlDetails a =>
      obtain ⟨k, hk, h1, h2, h3, h4, h5⟩ :=
        ih { w with calls := w.calls + 1, trace := w.trace ++ [.csrfFetch] }
      refine ⟨k + 1, by omega, ?_⟩
      simp only [net, hr]
      refine ⟨h1, h2, h3,
        by rw [h4]; show w.calls + 1 + k = w.calls + (k + 1); omega, ?_⟩
      rw [h5]
      simp [List.replicate_succ, List.append_assoc]
    | identsOk a =>
      obtain ⟨k, hk, h1, h2, h3, h4, h5⟩ :=
        ih { w with calls := w.calls + 1, trace := w.trace ++ [.csrfFetch] }
      refine ⟨k + 1, by omega, ?_⟩
      simp only [net, hr]
      refine ⟨h1, h2, h3,
        by rw [h4]; show w.calls + 1 + k = w.calls + (k + 1); omega, ?_⟩
      rw [h5]
      simp [List.replicate_succ, List.append_assoc]

lemma fetchCsrfToken_struct (n : Nat) (w : W)
    (hac : hasAuthCookies w.sess = true) :
    ∃ k, 1 ≤ k ∧
    (fetchCsrfToken n w).2.sess = w.sess ∧
    (fetchCsrfToken n w).2.env = w.env ∧
    (fetchCsrfToken n w).2.now = w.now ∧
    (fetchCsrfToken n w).2.calls = w.calls + k ∧
    (fetchCsrfToken n w).2.trace = w.trace ++ List.replicate k .csrfFetch := by
  have : fetchCsrfToken n w = csrfAttempts n w := by simp [fetchCsrfToken, hac]
  rw [this]
  exact csrfAttempts_struct n w

lemma fetchCsrfToken_sess_trace (n : Nat) (w : W) :
    (fetchCsrfToken n w).2.sess = w.sess ∧
    ∃ d, (fetchCsrfToken n w).2.trace = w.trace ++ d := by
  by_cases hac : hasAuthCookies w.sess = true
  · obtain ⟨k, _, h1, _, _, _, h5⟩ := fetchCsrfToken_struct n w hac
    exact ⟨h1, _, h5⟩
  · simp [fetchCsrfToken, hac]

lemma graphqlQuery_trace (op : String) (force : Bool) (w : W) :
    ∃ d, (graphqlQuery op force w).2.trace = w.trace ++ d := by
  unfold graphqlQuery
  by_cases hb : (w.sess.csrfToken.isNone || force) = true
  · rw [hb]
    simp only [if_true]
    cases h1 : fetchCsrfToken 2 w with
    | mk r1 w1 =>
      obtain ⟨-, d1, hd1⟩ := fetchCsrfToken_sess_trace 2 w
      rw [h1] at hd1
      cases r1 with
      | error e => exact ⟨d1, hd1⟩
      | ok tok =>
        refine ⟨d1 ++ [.query op], ?_⟩
        rw [gqlPost_snd]
        simp only [setTok]
        rw [hd1]
        simp [List.append_assoc]
  · rw [show (w.sess.csrfToken.isNone || force) = false by
        cases h : (w.sess.csrfToken.isNone || force) with
        | true => exact absurd h hb
        | false => rfl]
    simp only [Bool.false_eq_true, if_false]
    rw [gqlPost_snd]
    exact ⟨[.query op], rfl⟩

lemma appsLoop_trace (fuel : Nat) : ∀ (acc : List ApplicationResult)
    (cur : Option String) (w : W),
    ∃ d, (appsLoop fuel acc cur w).2.trace = w.trace ++ d := by
  induction fuel with
  | zero => intro acc cur w; exact ⟨[], by simp [appsLoop]⟩
  | succ n ih =>
    intro acc cur w
    cases h1 : graphqlQuery "ApiGetActiveApplications" false w with
    | mk r1 w1 =>
      obtain ⟨d1, hd1⟩ := graphqlQuery_trace "ApiGetActiveApplications" false w
      rw [h1] at hd1
      simp only at hd1
      cases r1 with
      | error e => exact ⟨d1, by simp only [appsLoop, h1]; exact hd1⟩
      | ok v =>
        cases v with
        | gqlApps results nextCursor more =>
          cases more with
          | true =>
            obtain ⟨d2, hd2⟩ := ih (acc ++ results) nextCursor w1
            refine ⟨d1 ++ d2, ?_⟩
            simp only [appsLoop, h1]
            rw [if_pos trivial, hd2, hd1]
            simp [List.append_assoc]
          | false =>
            exact ⟨d1, by simp only [appsLoop, h1]; simpa using hd1⟩
        | csrfOk t => exact ⟨d1, by simp only [appsLoop, h1]; exact hd1⟩
        | csrf401 => exact ⟨d1, by simp only [appsLoop, h1]; exact hd1⟩
        | netErr => exact ⟨d1, by simp only [appsLoop, h1]; exact hd1⟩
        | switchOk => exact ⟨d1, by simp only [appsLoop, h1]; exact hd1⟩
        | gqlUser a b => exact ⟨d1, by simp only [appsLoop, h1]; exact hd1⟩
        | gqlJobs a => exact ⟨d1, by simp only [appsLoop, h1]; exact hd1⟩
        | gqlDetails a => exact ⟨d1, by simp only [appsLoop, h1]; exact hd1⟩
        | identsOk a => exact ⟨d1, by simp only [appsLoop, h1]; exact hd1⟩

lemma pipelinePhases_trace (fuel : Nat) (orgId : String) (sw : Bool) (w : W) :
    ∃ d, (pipelinePhases fuel orgId sw w).2.trace = w.trace ++ d := by
  cases h1 : graphqlQuery "ApiOpenJobs" sw w with
  | mk r1 w1 =>
    obtain ⟨d1, hd1⟩ := graphqlQuery_trace "ApiOpenJobs" sw w
    rw [h1] at hd1
    simp only at hd1
    cases r1 with
    | error e => exact ⟨d1, by simp only [pipelinePhases, h1]; exact hd1⟩
    | ok v =>
      cases v with
      | gqlJobs jobsData =>
        cases h2 : appsLoop fuel [] none w1 with
        | mk apps w2 =>
          obtain ⟨d2, hd2⟩ := appsLoop_trace fuel [] none w1
          rw [h2] at hd2
          simp only at hd2
          cases h3 : graphqlQuery "ApiGetSessionUser" false w2 with
          | mk r3 w3 =>
            obtain ⟨d3, hd3⟩ := graphqlQuery_trace "ApiGetSessionUser" false w2
            rw [h3] at hd3
            simp only at hd3
            have hall : w3.trace = w.trace ++ (d1 ++ d2 ++ d3) := by
              rw [hd3, hd2, hd1]; simp [List.append_assoc]
            refine ⟨d1 ++ d2 ++ d3, ?_⟩
            simp only [pipelinePhases, h1, h2, h3]
            cases r3 with
            | error e => exact hall
            | ok v' => cases v' <;> exact hall
      | csrfOk t => exact ⟨d1, by simp only [pipelinePhases, h1]; exact hd1⟩
      | csrf401 => exact ⟨d1, by simp only [pipelinePhases, h1]; exact hd1⟩
      | netErr => exact ⟨d1, by simp only [pipelinePhases, h1]; exact hd1⟩
      | switchOk => exact ⟨d1, by simp only [pipelinePhases, h1]; exact hd1⟩
      | gqlUser a b => exact ⟨d1, by simp only [pipelinePhases, h1]; exact hd1⟩
      | gqlApps a b c => exact ⟨d1, by simp only [pipelinePhases, h1]; exact hd1⟩
      | gqlDetails a => exact ⟨d1, by simp only [pipelinePhases, h1]; exact hd1⟩
      | identsOk a => exact ⟨d1, by simp only [pipelinePhases, h1]; exact hd1⟩

lemma switchOrgContext_ok_struct (u : String) (w : W)
    (hok : (switchOrgContext u w).1 = .ok ()) :
    ∃ k1 k2 t2, 1 ≤ k1 ∧ 1 ≤ k2 ∧
      (switchOrgContext u w).2.sess.csrfToken = some t2 ∧
      (switchOrgContext u w).2.trace =
        w.trace ++ List.replicate k1 .csrfFetch ++ [.switchPost u] ++
          List.replicate k2 .csrfFetch ++ [.query "ApiGetSessionUser"] := by
  by_cases hac : hasAuthCookies w.sess = true
  case neg =>
    have hf : fetchCsrfToken 2 w = (.error .missingAuthCookies, w) := by
      simp [fetchCsrfToken, hac]
    unfold switchOrgContext at hok
    rw [hf] at hok
    simp at hok
  case pos =>
  unfold switchOrgContext at hok ⊢
  cases h1 : fetchCsrfToken 2 w with
  | mk r1 w1 =>
    rw [h1] at hok
    obtain ⟨k1, hk1, hs1, he1, hn1, hc1, ht1⟩ := fetchCsrfToken_struct 2 w hac
    rw [h1] at hs1 he1 hn1 hc1 ht1
    simp only at hs1 he1 hn1 hc1 ht1
    cases r1 with
    | error e => simp at hok
    | ok tok =>
      simp only [net] at hok ⊢
      cases h2 : w1.env w1.calls with
      | switchOk =>
        rw [h2] at hok
        simp only at hok ⊢
        have hac2 : hasAuthCookies
            ({ w1 with
               calls := w1.calls + 1
               trace := w1.trace ++ [.switchPost u] } : W).sess = true := by
          show hasAuthCookies w1.sess = true
          rw [hs1]; exact hac
        cases h3 : fetchCsrfToken 2
            { w1 with
              calls := w1.calls + 1
              trace := w1.trace ++ [.switchPost u] } with
        | mk r3 w3 =>
          rw [h3] at hok
          obtain ⟨k2, hk2, hs3, he3, hn3, hc3, ht3⟩ :=
            fetchCsrfToken_struct 2
              { w1 with
                calls := w1.calls + 1
                trace := w1.trace ++ [.switchPost u] } hac2
          rw [h3] at hs3 he3 hn3 hc3 ht3
          simp only at hs3 he3 hn3 hc3 ht3
          cases r3 with
          | error e => simp at hok
          | ok tok2 =>
            refine ⟨k1, k2, tok2, hk1, hk2, ?_, ?_⟩
            · show (graphqlQuery "ApiGetSessionUser" false
                  (setTok w3 (some tok2))).2.sess.csrfToken = some tok2
              rw [graphqlQuery_snd_of_token _ _ tok2 rfl]
              rfl
            · show (graphqlQuery "ApiGetSessionUser" false
                  (setTok w3 (some tok2))).2.trace = _
              rw [graphqlQuery_snd_of_token _ _ tok2 rfl]
              show w3.trace ++ [Ev.query "ApiGetSessionUser"] = _
              rw [ht3, ht1]
      | csrfOk t => rw [h2] at hok; simp at hok
      | csrf401 => rw [h2] at hok; simp at hok
      | netErr => rw [h2] at hok; simp at hok
      | gqlUser a b => rw [h2] at hok; simp at hok
      | gqlJobs a => rw [h2] at hok; simp at hok
      | gqlApps a b c => rw [h2] at hok; simp at hok
      | gqlDetails a => rw [h2] at hok; simp at hok
      | identsOk a => rw [h2] at hok; simp at hok

/-- C6: whenever the switch path is taken and the switch succeeds, the
request trace of the whole org fetch decomposes as: events before the
switch, the switch request, then one or more token fetches — the forced
refresh — before the first query issued against the tenant (and all
later queries come after it). -/
theorem forced_refresh_between_switch_and_queries (fuel : Nat)
    (orgId u : String) (w : W) (hu : u ≠ "") (ho : orgId ≠ "default")
    (hok : (switchOrgContext u w).1 = .ok ()) :
    ∃ k1 k2 rest, 1 ≤ k2 ∧
      (fetchPipelineForOrg fuel orgId (some u) w).2.trace =
        w.trace ++ List.replicate k1 .csrfFetch ++ [.switchPost u] ++
          List.replicate k2 .csrfFetch ++ Ev.query "ApiGetSessionUser" :: rest := by
  obtain ⟨k1, k2, t2, hk1, hk2, htok, htr⟩ := switchOrgContext_ok_struct u w hok
  unfold fetchPipelineForOrg
  have hcond : ((Option.getD (some u) "" ≠ "" : Bool) &&
      (orgId ≠ "default" : Bool)) = true := by simp [hu, ho]
  rw [hcond]
  simp only [if_true, Option.getD_some]
  cases hsw : switchOrgContext u w with
  | mk rs w1 =>
    rw [hsw] at hok htr
    simp only at hok htr
    cases rs with
    | error e => simp at hok
    | ok uu =>
      obtain ⟨d, hd⟩ := pipelinePhases_trace fuel orgId true w1
      refine ⟨k1, k2, d, hk2, ?_⟩
      rw [hd, htr]
      simp [List.append_assoc]

/-- C6 witness: the trace decomposition at a concrete successful run. -/
theorem forced_refresh_between_switch_and_queries_witness :
    ("u1" : String) ≠ "" ∧ ("org1" : String) ≠ "default" ∧
    (switchOrgContext "u1" w1).1 = .ok () ∧
    (∃ k1 k2 rest, 1 ≤ k2 ∧
      (fetchPipelineForOrg 1 "org1" (some "u1") w1).2.trace =
        w1.trace ++ List.replicate k1 .csrfFetch ++ [.switchPost "u1"] ++
          List.replicate k2 .csrfFetch ++ Ev.query "ApiGetSessionUser" :: rest) :=
  ⟨by decide, by decide, by decide,
   forced_refresh_between_switch_and_queries 1 "org1" "u1" w1
     (by decide) (by decide) (by decide)⟩

/-- C7 witness: a 401 answer at a concrete world. -/
theorem fetchCsrfToken_auth_failure_witness :
    hasAuthCookies (mkW (scriptEnv [.csrf401]) sess0 0).sess = true ∧
    (fetchCsrfToken 2 (mkW (scriptEnv [.csrf401]) sess0 0) =
        csrfAttempts 2 (mkW (scriptEnv [.csrf401]) sess0 0) ∧
      ((mkW (scriptEnv [.csrf401]) sess0 0).env (mkW (scriptEnv [.csrf401]) sess0 0).calls = .csrf401 →
        csrfAttempts 2 (mkW (scriptEnv [.csrf401]) sess0 0) =
          (.error .sessionInvalid,
           { mkW (scriptEnv [.csrf401]) sess0 0 with
              calls := (mkW (scriptEnv [.csrf401]) sess0 0).calls + 1,
              trace := (mkW (scriptEnv [.csrf401]) sess0 0).trace ++ [.csrfFetch] })) ∧
      ((∀ t, (mkW (scriptEnv [.csrf401]) sess0 0).env (mkW (scriptEnv [.csrf401]) sess0 0).calls ≠ .csrfOk t) →
        (mkW (scriptEnv [.csrf401]) sess0 0).env (mkW (scriptEnv [.csrf401]) sess0 0).calls ≠ .csrf401 →
        csrfAttempts 3 (mkW (scriptEnv [.csrf401]) sess0 0) =
          csrfAttempts 2 { mkW (scriptEnv [.csrf401]) sess0 0 with
              calls := (mkW (scriptEnv [.csrf401]) sess0 0).calls + 1,
              trace := (mkW (scriptEnv [.csrf401]) sess0 0).trace ++ [.csrfFetch] })) :=
  ⟨rfl, fetchCsrfToken_auth_failure 2 (mkW (scriptEnv [.csrf401]) sess0 0) rfl⟩

lemma enrichedFrom_key {c c' : Candidate} (h : enrichedFrom c c') :
    keyOf c' = keyOf c := by
  rcases h with rfl | ⟨d, rfl⟩
  · rfl
  · rfl

lemma forallSelf (l : List Candidate) : List.Forall₂ enrichedFrom l l := by
  induction l with
  | nil => exact .nil
  | cons a t ih => exact .cons (Or.inl rfl) ih

lemma enrichOne_rel (fa : Bool) (c : Candidate) (w : W) :
    enrichedFrom c (enrichOne fa c w).1 := by
  unfold enrichOne
  by_cases hb : (!fa && !c.needsScheduling) = true
  · rw [hb]
    exact Or.inl rfl
  · have hb' : (!fa && !c.needsScheduling) = false := by
      cases h : (!fa && !c.needsScheduling) with
      | true => exact absurd h hb
      | false => rfl
    rw [hb']
    simp only [Bool.false_eq_true, if_false]
    cases hf : fetchApplicationDetails c.applicationId w with
    | mk od w2 =>
      cases od with
      | none => exact Or.inl rfl
      | some d => exact Or.inr ⟨d, rfl⟩

lemma enrichBatch_rel (fa : Bool) : ∀ (bs : List Candidate) (w : W),
    List.Forall₂ enrichedFrom bs (enrichBatch fa bs w).1 := by
  intro bs
  induction bs with
  | nil => intro w; exact .nil
  | cons c t ih =>
    intro w
    cases h1 : enrichOne fa c w with
    | mk c' w1 =>
      cases h2 : enrichBatch fa t w1 with
      | mk t' w2 =>
        have hc := enrichOne_rel fa c w
        rw [h1] at hc
        have ht := ih w1
        rw [h2] at ht
        have hres : (enrichBatch fa (c :: t) w).1 = c' :: t' := by
          simp [enrichBatch, h1, h2]
        rw [hres]
        exact .cons hc ht

lemma enrichGroupBatches_rel (fa : Bool) (mc : Nat) :
    ∀ (fuel : Nat) (cs : List Candidate) (w : W),
    List.Forall₂ enrichedFrom cs (enrichGroupBatches fa mc fuel cs w).1 := by
  intro fuel
  induction fuel with
  | zero => intro cs w; exact forallSelf cs
  | succ n ih =>
    intro cs w
    cases cs with
    | nil => exact .nil
    | cons c t =>
      cases h1 : enrichBatch fa ((c :: t).take mc) w with
      | mk b' w1 =>
        cases h2 : enrichGroupBatches fa mc n ((c :: t).drop mc) w1 with
        | mk r' w2 =>
          have hb := enrichBatch_rel fa ((c :: t).take mc) w
          rw [h1] at hb
          have hr := ih ((c :: t).drop mc) w1
          rw [h2] at hr
          have hres : (enrichGroupBatches fa mc (n + 1) (c :: t) w).1 = b' ++ r' := by
            simp [enrichGroupBatches, h1, h2]
          rw [hres]
          have hall : List.Forall₂ enrichedFrom
              (List.take mc (c :: t) ++ List.drop mc (c :: t)) (b' ++ r') :=
            List.rel_append hb hr
          rw [List.take_append_drop] at hall
          exact hall

lemma enrichGroups_rel (orgInfos : List OrgInfoWithUserId) (fa : Bool) (mc : Nat) :
    ∀ (groups : List (String × List Candidate)) (cur : Option String) (w : W),
    List.Forall₂ enrichedFrom ((groups.map (fun p => p.2)).flatten)
      (enrichGroups orgInfos fa mc groups cur w).1 := by
  intro groups
  induction groups with
  | nil => intro cur w; exact .nil
  | cons g rest ih =>
    obtain ⟨orgId, gc⟩ := g
    intro cur w
    simp only [List.map_cons, List.flatten_cons]
    by_cases h1 : lookupUserId orgInfos orgId = ""
    · cases h2 : enrichGroups orgInfos fa mc rest cur w with
      | mk r w2 =>
        have hres : (enrichGroups orgInfos fa mc ((orgId, gc) :: rest) cur w).1 =
            gc ++ r := by
          simp [enrichGroups, h1, h2]
        rw [hres]
        have hr := ih cur w
        rw [h2] at hr
        exact List.rel_append (forallSelf gc) hr
    · by_cases h3 : cur = some orgId
      · subst h3
        cases h4 : enrichGroupBatches fa mc gc.length gc w with
        | mk g' w4 =>
          cases h5 : enrichGroups orgInfos fa mc rest (some orgId) w4 with
          | mk r w5 =>
            have hres : (enrichGroups orgInfos fa mc ((orgId, gc) :: rest)
                (some orgId) w).1 = g' ++ r := by
              simp [enrichGroups, h1, h4, h5]
            rw [hres]
            have hg := enrichGroupBatches_rel fa mc gc.length gc w
            rw [h4] at hg
            have hr := ih (some orgId) w4
            rw [h5] at hr
            exact List.rel_append hg hr
      · cases h6 : switchOrgContext (lookupUserId orgInfos orgId) w with
        | mk sr w6 =>
          cases sr with
          | error e =>
            cases h7 : enrichGroups orgInfos fa mc rest cur w6 with
            | mk r w7 =>
              have hres : (enrichGroups orgInfos fa mc ((orgId, gc) :: rest) cur w).1 =
                  gc ++ r := by
                simp [enrichGroups, h1, h3, h6, h7]
              rw [hres]
              have hr := ih cur w6
              rw [h7] at hr
              exact List.rel_append (forallSelf gc) hr
          | ok uu =>
            cases h4 : enrichGroupBatches fa mc gc.length gc w6 with
            | mk g' w4 =>
              cases h7 : enrichGroups orgInfos fa mc rest (some orgId) w4 with
              | mk r w7 =>
                have hres : (enrichGroups orgInfos fa mc ((orgId, gc) :: rest) cur w).1 =
                    g' ++ r := by
                  simp [enrichGroups, h1, h3, h6, h4, h7]
                rw [hres]
                have hg := enrichGroupBatches_rel fa mc gc.length gc w6
                rw [h4] at hg
                have hr := ih (some orgId) w4
                rw [h7] at hr
                exact List.rel_append hg hr

lemma groupInsert_perm (c : Candidate) : ∀ (m : List (String × List Candidate)),
    List.Perm (((groupInsert m c).map (fun p => p.2)).flatten)
      ((m.map (fun p => p.2)).flatten ++ [c]) := by
  intro m
  induction m with
  | nil => simp [groupInsert]
  | cons p rest ih =>
    obtain ⟨k, g⟩ := p
    by_cases hk : k = c.orgId
    · simp only [groupInsert]
      rw [if_pos hk]
      simp only [List.map_cons, List.flatten_cons, List.append_assoc]
      exact List.Perm.append_left g
        (List.perm_append_comm :
          List.Perm ([c] ++ (rest.map (fun p => p.2)).flatten)
            ((rest.map (fun p => p.2)).flatten ++ [c]))
    · simp only [groupInsert]
      rw [if_neg hk]
      simp only [List.map_cons, List.flatten_cons, List.append_assoc]
      exact List.Perm.append_left g ih

lemma groupByOrg_foldl_perm : ∀ (l : List Candidate)
    (m : List (String × List Candidate)),
    List.Perm (((l.foldl groupInsert m).map (fun p => p.2)).flatten)
      ((m.map (fun p => p.2)).flatten ++ l) := by
  intro l
  induction l with
  | nil => intro m; simp
  | cons c t ih =>
    intro m
    have h2 : (c :: t).foldl groupInsert m = t.foldl groupInsert (groupInsert m c) :=
      rfl
    rw [h2]
    refine (ih (groupInsert m c)).trans ?_
    refine ((groupInsert_perm c m).append_right t).trans ?_
    rw [List.append_assoc]
    exact List.Perm.refl _

lemma groupByOrg_perm (cands : List Candidate) :
    List.Perm (((groupByOrg cands).map (fun p => p.2)).flatten) cands := by
  have h := groupByOrg_foldl_perm cands []
  simpa [groupByOrg] using h

lemma forall₂_mem_right {l₁ l₂ : List Candidate}
    (h : List.Forall₂ enrichedFrom l₁ l₂) :
    ∀ c' ∈ l₂, ∃ c ∈ l₁, enrichedFrom c c' := by
  induction h with
  | nil => intro c' hc'; simp at hc'
  | cons hab hrest ih =>
    intro c' hc'
    rcases List.mem_cons.mp hc' with rfl | hmem
    · exact ⟨_, List.mem_cons_self _ _, hab⟩
    · obtain ⟨c, hc, hr⟩ := ih c' hmem
      exact ⟨c, List.mem_cons_of_mem _ hc, hr⟩

lemma forall₂_key_map {l₁ l₂ : List Candidate}
    (h : List.Forall₂ enrichedFrom l₁ l₂) :
    l₂.map keyOf = l₁.map keyOf := by
  induction h with
  | nil => rfl
  | cons hab _ ih => simp [List.map_cons, ih, enrichedFrom_key hab]

/-- C10: enrichment returns exactly one output record per input record:
the output has the same length and the same multiset of (candidate id,
application id) pairs as the input, and every output record is its input
record either unchanged or augmented with the fetched enrichment fields;
per-record fetch failures, missing user-within-tenant ids and failed
tenant switches pass the affected records through unchanged. -/
theorem enrichment_preserves_records (cands : List Candidate)
    (orgInfos : List OrgInfoWithUserId) (mc : Nat) (fetchAll : Bool) (w : W)
    (hmc : 0 < mc) :
    (enrichCandidatesWithDetails cands orgInfos mc fetchAll w).1.length =
      cands.length ∧
    List.Perm
      ((enrichCandidatesWithDetails cands orgInfos mc fetchAll w).1.map keyOf)
      (cands.map keyOf) ∧
    ∀ c' ∈ (enrichCandidatesWithDetails cands orgInfos mc fetchAll w).1,
      ∃ c ∈ cands, enrichedFrom c c' := by
  have hrel := enrichGroups_rel orgInfos fetchAll mc (groupByOrg cands) none w
  have hperm := groupByOrg_perm cands
  have hkey := forall₂_key_map hrel
  have hout : enrichCandidatesWithDetails cands orgInfos mc fetchAll w =
      enrichGroups orgInfos fetchAll mc (groupByOrg cands) none w := rfl
  rw [hout]
  refine ⟨?_, ?_, ?_⟩
  · have h1 := hrel.length_eq
    have h2 := hperm.length_eq
    omega
  · rw [hkey]
    exact hperm.map keyOf
  · intro c' hc'
    obtain ⟨c, hc, hr⟩ := forall₂_mem_right hrel c' hc'
    exact ⟨c, hperm.mem_iff.mp hc, hr⟩

/-- C10 witness: the preservation property at a concrete two-record,
two-tenant input against a remote that fails every call. -/
theorem enrichment_preserves_records_witness :
    0 < 2 ∧
    ((enrichCandidatesWithDetails [candFix "1" "o1", candFix "2" "o2"] [] 2 true
        (mkW envNone sess0 0)).1.length =
      ([candFix "1" "o1", candFix "2" "o2"] : List Candidate).length ∧
    List.Perm
      ((enrichCandidatesWithDetails [candFix "1" "o1", candFix "2" "o2"] [] 2 true
        (mkW envNone sess0 0)).1.map keyOf)
      (([candFix "1" "o1", candFix "2" "o2"] : List Candidate).map keyOf) ∧
    ∀ c' ∈ (enrichCandidatesWithDetails [candFix "1" "o1", candFix "2" "o2"] [] 2
        true (mkW envNone sess0 0)).1,
      ∃ c ∈ ([candFix "1" "o1", candFix "2" "o2"] : List Candidate),
        enrichedFrom c c') :=
  ⟨by decide,
   enrichment_preserves_records [candFix "1" "o1", candFix "2" "o2"] [] 2 true
     (mkW envNone sess0 0) (by decide)⟩

end Ashby
